import Mathlib

/-!
Verification of the PII scanner (`.github/scripts/pii-scanner.py`).

The scanner walks the repository for markdown files, matches each line
against a fixed table of PII regular expressions, suppresses matches whose
text contains an allow-listed pattern, classifies the surviving findings
against a JSON baseline by a colon-joined signature, and exits non-zero
when a finding is not in the baseline.

The embedding below follows the Python source closely:
* a small backtracking regular-expression engine with Python `re`
  semantics (leftmost match, greedy quantifiers, word boundaries,
  `IGNORECASE`) sufficient for the fixed patterns of the scanner;
* `PII_PATTERNS`, `ALLOWED_PATTERNS`, `is_allowed_pattern`, `scan_file`,
  `load_baseline` and the classification / exit logic of `main`;
* the `os.walk` traversal with its directory pruning.

File I/O is modelled by passing file contents explicitly: a document is a
path together with `Option String` (`none` = the read raised), and the
baseline file is `Option (Option (List Finding))`
(`none` = absent, `some none` = present but malformed JSON,
`some (some vs)` = parsed entries).
-/

namespace PIIScanner

/-! ## Character classes (Python `re`, ASCII inputs) -/

/-- Python `\d` on ASCII input. -/
def isDigitCh (c : Char) : Bool := c.isDigit

/-- Python `\s`: space, tab, newline, carriage return, vertical tab, form feed. -/
def pySpace (c : Char) : Bool :=
  c = ' ' || c = '\t' || c = '\n' || c = '\r' || c = '\x0b' || c = '\x0c'

/-- Python `\w` on ASCII input (used by the word-boundary assertion). -/
def isWordCh (c : Char) : Bool := c.isAlphanum || c = '_'

/-! ## Regular expressions

An AST covering exactly the constructs used by the scanner's patterns:
character classes, concatenation, greedy `?`, greedy `+` / `{n}` / `{n,}`
over a character class, and the word-boundary assertion. Capturing groups
do not affect `match.group()` (the whole match), so they are not modelled.
-/

inductive RE where
  | eps : RE
  | cls (p : Char → Bool) : RE
  | seq (a b : RE) : RE
  | opt (a : RE) : RE
  | rep1 (p : Char → Bool) : RE
  | repAtLeast (n : Nat) (p : Char → Bool) : RE
  | repExact (n : Nat) (p : Char → Bool) : RE
  | bnd : RE

/-- Length of the maximal run of class characters at the head of a list. -/
def maxRunFrom (p : Char → Bool) : List Char → Nat
  | [] => 0
  | c :: cs => if p c then maxRunFrom p cs + 1 else 0

/-- Length of the maximal run of class characters starting at position `i`. -/
def maxRun (p : Char → Bool) (s : List Char) (i : Nat) : Nat :=
  maxRunFrom p (s.drop i)

/-- Try the continuation at `lo + d`, `lo + d - 1`, …, `lo` (greedy order). -/
def tryDownAux (k : Nat → Option Nat) (lo : Nat) : Nat → Option Nat
  | 0 => k lo
  | d + 1 =>
    match k (lo + d + 1) with
    | some r => some r
    | none => tryDownAux k lo d

/-- Try the continuation at `hi`, `hi - 1`, …, `lo` (greedy backtracking). -/
def tryDown (k : Nat → Option Nat) (lo hi : Nat) : Option Nat :=
  if hi < lo then none else tryDownAux k lo (hi - lo)

/-- Is the character at position `i` a word character? -/
def isWordAt (s : List Char) (i : Nat) : Bool :=
  match s.get? i with
  | some c => isWordCh c
  | none => false

/-- Python word boundary: exactly one side of position `i` is a word char. -/
def atBoundary (s : List Char) (i : Nat) : Bool :=
  (if i = 0 then false else isWordAt s (i - 1)) != isWordAt s i

/-- Backtracking matcher in continuation-passing style. `mtch re s i k`
matches `re` at position `i` of `s`, exploring alternatives in Python's
priority order (greedy quantifiers longest-first) and feeding each
candidate end position to `k`; the first success wins. -/
def mtch : RE → List Char → Nat → (Nat → Option Nat) → Option Nat
  | .eps, _, i, k => k i
  | .cls p, s, i, k =>
    match s.get? i with
    | some c => if p c then k (i + 1) else none
    | none => none
  | .seq a b, s, i, k => mtch a s i (fun j => mtch b s j k)
  | .opt a, s, i, k =>
    match mtch a s i k with
    | some r => some r
    | none => k i
  | .rep1 p, s, i, k =>
    let m := maxRun p s i
    if m = 0 then none else tryDown k (i + 1) (i + m)
  | .repAtLeast n p, s, i, k =>
    let m := maxRun p s i
    if m < n then none else tryDown k (i + n) (i + m)
  | .repExact n p, s, i, k =>
    if n ≤ maxRun p s i then k (i + n) else none
  | .bnd, s, i, k => if atBoundary s i then k i else none

/-- Anchored match at position `i`; returns the end position of the
leftmost-greedy match, if any. -/
def matchAt (re : RE) (s : List Char) (i : Nat) : Option Nat :=
  mtch re s i some

/-- Python `re.search`: does the pattern match at some position? -/
def reSearch (re : RE) (s : List Char) : Bool :=
  (List.range (s.length + 1)).any (fun i => (matchAt re s i).isSome)

/-- Python `re.finditer`: non-overlapping matches, scanning left to right;
after a match the scan resumes at its end (one past, for an empty match).
`fuel` bounds the recursion; `s.length + 1` always suffices. -/
def finditerAux (re : RE) (s : List Char) : Nat → Nat → List (Nat × Nat)
  | 0, _ => []
  | fuel + 1, i =>
    if s.length < i then []
    else
      match matchAt re s i with
      | some e =>
        (i, e) :: finditerAux re s fuel (if e = i then i + 1 else e)
      | none => finditerAux re s fuel (i + 1)

/-- All matches of `re` in `s` as (start, end) pairs, Python-`finditer` order. -/
def finditer (re : RE) (s : List Char) : List (Nat × Nat) :=
  finditerAux re s (s.length + 1) 0

/-! ## The scanner's patterns -/

/-- Single literal character, matched case-insensitively (`re.IGNORECASE`). -/
def ciChar (a : Char) : RE := RE.cls (fun c => c.toLower = a.toLower)

/-- Case-insensitive literal string as a regex. -/
def ciLit (t : List Char) : RE :=
  t.foldr (fun a r => RE.seq (ciChar a) r) RE.eps

/-- Concatenation of a list of regexes. -/
def seqAll (rs : List RE) : RE := rs.foldr RE.seq RE.eps

/-- Character class `[A-Za-z0-9._%+-]` (local part of the email pattern). -/
def emailLocalSet (c : Char) : Bool :=
  c.isAlpha || c.isDigit || c = '.' || c = '_' || c = '%' || c = '+' || c = '-'

/-- Character class `[A-Za-z0-9.-]` (domain part of the email pattern). -/
def emailDomainSet (c : Char) : Bool :=
  c.isAlpha || c.isDigit || c = '.' || c = '-'

/-- Character class `[A-Z|a-z]` of the email pattern (the `|` is literal). -/
def emailTldSet (c : Char) : Bool := c.isAlpha || c = '|'

/-- Character class `[-.\s]` (separators in the phone pattern). -/
def phoneSepSet (c : Char) : Bool := c = '-' || c = '.' || pySpace c

/-- Character class `[-\s]` (separators in the credit-card pattern). -/
def ccSepSet (c : Char) : Bool := c = '-' || pySpace c

/-- The email pattern `\b[A-Za-z0-9._%+-]+@[A-Za-z0-9.-]+\.[A-Z|a-z]{2,}\b`. -/
def emailRE : RE := seqAll
  [RE.bnd, RE.rep1 emailLocalSet, RE.cls (fun c => c = '@'),
   RE.rep1 emailDomainSet, RE.cls (fun c => c = '.'),
   RE.repAtLeast 2 emailTldSet, RE.bnd]

/-- The phone pattern
`(\+1[-.\s]?)?\(?([0-9]{3})\)?[-.\s]?([0-9]{3})[-.\s]?([0-9]{4})`. -/
def usPhoneRE : RE := seqAll
  [RE.opt (seqAll [RE.cls (fun c => c = '+'), RE.cls (fun c => c = '1'),
                   RE.opt (RE.cls phoneSepSet)]),
   RE.opt (RE.cls (fun c => c = '(')),
   RE.repExact 3 isDigitCh,
   RE.opt (RE.cls (fun c => c = ')')),
   RE.opt (RE.cls phoneSepSet),
   RE.repExact 3 isDigitCh,
   RE.opt (RE.cls phoneSepSet),
   RE.repExact 4 isDigitCh]

/-- The SSN pattern `\b\d{3}-\d{2}-\d{4}\b`. -/
def ssnRE : RE := seqAll
  [RE.bnd, RE.repExact 3 isDigitCh, RE.cls (fun c => c = '-'),
   RE.repExact 2 isDigitCh, RE.cls (fun c => c = '-'),
   RE.repExact 4 isDigitCh, RE.bnd]

/-- The credit-card pattern `\b(?:\d{4}[-\s]?){3}\d{4}\b`
(the `{3}` group repetition unrolled). -/
def creditCardRE : RE := seqAll
  [RE.bnd,
   RE.repExact 4 isDigitCh, RE.opt (RE.cls ccSepSet),
   RE.repExact 4 isDigitCh, RE.opt (RE.cls ccSepSet),
   RE.repExact 4 isDigitCh, RE.opt (RE.cls ccSepSet),
   RE.repExact 4 isDigitCh, RE.bnd]

/-- `PII_PATTERNS`, in the source's (insertion) order. -/
def PII_PATTERNS : List (String × RE) :=
  [("email", emailRE), ("us_phone", usPhoneRE),
   ("ssn", ssnRE), ("credit_card", creditCardRE)]

/-- `ALLOWED_PATTERNS`: allow-listed test/example data. -/
def ALLOWED_PATTERNS : List RE :=
  [ciLit "example@example.com".data,
   ciLit "test@test.com".data,
   ciLit "user@domain.com".data,
   ciLit "+1234567890".data,
   RE.seq (ciLit "+1555".data) (RE.repExact 7 isDigitCh),
   ciLit "123-456-7890".data]

/-- `is_allowed_pattern`: does any allow-listed pattern occur
(case-insensitive `re.search`, substring semantics) in the text? -/
def is_allowed_pattern (text : List Char) : Bool :=
  ALLOWED_PATTERNS.any (fun re => reSearch re text)

/-! ## Findings and file scanning -/

/-- One violation record, as built in `scan_file` (the Python dict with
keys `file`, `line`, `type`, `text`, `context`; `type` is a Lean keyword,
so the field is named `kind`). -/
structure Finding where
  file : String
  line : Nat
  kind : String
  text : String
  context : String
deriving DecidableEq, Repr

/-- Python `str.strip()`: drop leading and trailing whitespace. -/
def pyStrip (s : List Char) : List Char :=
  ((s.dropWhile pySpace).reverse.dropWhile pySpace).reverse

/-- The `context` field: `line.strip()[:100]`. -/
def contextOf (line : List Char) : String :=
  String.mk ((pyStrip line).take 100)

/-- The inner loop of `scan_file` for one line: for each PII pattern in
table order, every `finditer` match whose text is not allow-listed becomes
a violation. -/
def scanLine (file_path : String) (line_num : Nat) (line : List Char) :
    List Finding :=
  PII_PATTERNS.flatMap (fun pr =>
    (finditer pr.2 line).filterMap (fun se =>
      let t := (line.drop se.1).take (se.2 - se.1)
      if is_allowed_pattern t then none
      else some { file := file_path, line := line_num, kind := pr.1,
                  text := String.mk t, context := contextOf line }))

/-- Python `content.split('\n')`: split into lines on newline characters
(an empty content gives one empty line; a trailing newline gives a final
empty line). -/
def splitNl : List Char → List (List Char)
  | [] => [[]]
  | c :: cs =>
    if c = '\n' then [] :: splitNl cs
    else
      match splitNl cs with
      | [] => [[c]]
      | l :: ls => (c :: l) :: ls

/-- `scan_file`: scan one document. `none` content models a read/decode
failure: the exception is caught (and logged), and the empty list is
returned. Otherwise the content is split on newlines and each line is
scanned, line numbers starting at 1. -/
def scan_file (file_path : String) (content : Option String) : List Finding :=
  match content with
  | none => []
  | some content =>
    ((splitNl content.data).enumFrom 1).flatMap
      (fun nl => scanLine file_path nl.1 nl.2)

/-! ## Baseline and main -/

/-- `load_baseline`: `none` = baseline file absent (return `[]`);
`some none` = file present but malformed JSON (`json.load` raises, which
`main` does not catch: the process aborts); `some (some vs)` = parsed. -/
def load_baseline : Option (Option (List Finding)) → Except Unit (List Finding)
  | none => .ok []
  | some none => .error ()
  | some (some vs) => .ok vs

/-- The identifying signature `f"{file}:{line}:{type}:{text}"` used for
baseline matching. -/
def signature (v : Finding) : String :=
  v.file ++ ":" ++ toString v.line ++ ":" ++ v.kind ++ ":" ++ v.text

/-- Outcome of a run of `main` (after a successful baseline load):
the scanned and new violations, the exit code, and what `save_baseline`
wrote (`none` = the baseline file was not written). -/
structure RunResult where
  all_violations : List Finding
  new_violations : List Finding
  exitCode : Nat
  written : Option (List Finding)
deriving DecidableEq, Repr

/-- The `all_violations` variable of `main`: scan every discovered
document and concatenate the findings. -/
def allViolations (docs : List (String × Option String)) : List Finding :=
  docs.flatMap (fun d => scan_file d.1 d.2)

/-- `main` after `load_baseline` succeeded: scan the given documents,
classify against the baseline signatures, `sys.exit(1)` on any new
violation (reached before the baseline update), otherwise fall through to
the optional `save_baseline` and exit 0. -/
def runMainOk (docs : List (String × Option String))
    (baseline_violations : List Finding) (updateFlag : Bool) : RunResult :=
  let all_violations := allViolations docs
  let baseline_signatures := baseline_violations.map signature
  let new_violations := all_violations.filter
    (fun v => !(baseline_signatures.contains (signature v)))
  if new_violations.isEmpty then
    { all_violations, new_violations, exitCode := 0,
      written := if updateFlag then some all_violations else none }
  else
    { all_violations, new_violations, exitCode := 1, written := none }

/-- `main`: load the baseline (a malformed baseline file aborts the whole
process before any decision is reported), then classify and exit. -/
def runMain (docs : List (String × Option String))
    (baselineFile : Option (Option (List Finding))) (updateFlag : Bool) :
    Except Unit RunResult :=
  (load_baseline baselineFile).map (fun b => runMainOk docs b updateFlag)

/-! ## Document discovery (`os.walk` with pruning) -/

/-- A directory tree: name, subdirectories, plain file names. -/
inductive FSTree where
  | dir (name : String) (subdirs : List FSTree) (files : List String) : FSTree

/-- The name of a directory node. -/
def FSTree.name : FSTree → String
  | .dir n _ _ => n

/-- The pruning predicate of `main`'s walk:
`not d.startswith('.') and d != 'node_modules'`. -/
def keepDir (d : String) : Bool :=
  !(List.isPrefixOf ".".data d.data) && d ≠ "node_modules"

/-- `os.walk` with the scanner's in-place pruning of `dirs`, collecting
the markdown files as (directory components below the root, file name).
Only subdirectories passing `keepDir` are recursed into, so pruned
subtrees are never descended into. `fuel` bounds the recursion depth
(any fuel at least the height of the tree walks it in full; the pruning
property below holds for every fuel). -/
def walk (fuel : Nat) : FSTree → List (List String × String) :=
  match fuel with
  | 0 => fun _ => []
  | fuel + 1 => fun t =>
    match t with
    | .dir _ subdirs files =>
      (files.filter (fun f => List.isSuffixOf ".md".data f.data)).map
          (fun f => ([], f)) ++
        (subdirs.filter (fun s => keepDir s.name)).flatMap
          (fun s => (walk fuel s).map (fun pr => (s.name :: pr.1, pr.2)))

/-! ## Helper notions and lemmas -/

/-- The identifying tuple (file, line, kind, text) of a finding. -/
def tupleOf (v : Finding) : String × Nat × String × String :=
  (v.file, v.line, v.kind, v.text)

/-! Concrete documents and findings used in the example-based theorems. -/

/-- The spec's example document `docs/a.md`: line 3 holds an email
address, line 5 an allow-listed-looking phone number. -/
def docA : String := "\n\nContact: jane.doe@example.org\n\nCall +1234567890"

/-- The email finding that the scan reports on line 3 of `docA`. -/
def emailFindingA : Finding :=
  { file := "docs/a.md", line := 3, kind := "email",
    text := "jane.doe@example.org", context := "Contact: jane.doe@example.org" }

/-- The phone finding that the scan reports on line 5 of `docA`: the
regex match starts after the `+`, so the matched text is `1234567890`. -/
def phoneFindingA : Finding :=
  { file := "docs/a.md", line := 5, kind := "us_phone",
    text := "1234567890", context := "Call +1234567890" }

/-- The finding reported (twice) on a line holding `a@b.co` twice. -/
def dupFinding : Finding :=
  { file := "docs/a.md", line := 1, kind := "email", text := "a@b.co",
    context := "a@b.co a@b.co" }

/-- A finding whose file path contains colons. -/
def collFinding : Finding :=
  { file := "a:1:email", line := 1, kind := "email", text := "x@y.com",
    context := "x@y.com" }

/-- A baseline entry with a different identifying tuple (its text holds
colons) but the same colon-joined signature as `collFinding`. -/
def collEntry : Finding :=
  { file := "a", line := 1, kind := "email", text := "1:email:x@y.com",
    context := "" }

/-- A small repository tree with a hidden directory, a dependency cache
and an ordinary `docs` directory. -/
def sampleTree : FSTree :=
  .dir "." [.dir ".git" [] ["h.md"], .dir "node_modules" [] ["n.md"],
    .dir "docs" [] ["a.md"]] ["R.md"]

/-- Every finding produced by `scanLine` carries the scanned file, the
line number and the line's context, and its text is not allow-listed. -/
theorem mem_scanLine {p : String} {n : Nat} {l : List Char} {f : Finding}
    (h : f ∈ scanLine p n l) :
    f.file = p ∧ f.line = n ∧ f.context = contextOf l ∧
      is_allowed_pattern f.text.data = false := by
  simp only [scanLine, List.mem_flatMap, List.mem_filterMap] at h
  obtain ⟨pr, -, se, -, hf⟩ := h
  split at hf
  · exact absurd hf (by simp)
  · rename_i hcond
    cases hf
    exact ⟨rfl, rfl, rfl, by simpa using hcond⟩

/-- Every finding of `scan_file` comes from some line of the content:
the content was readable, and the finding's line number indexes a line on
which `scanLine` produced it. -/
theorem mem_scan_file {p : String} {c : Option String} {f : Finding}
    (h : f ∈ scan_file p c) :
    ∃ content, c = some content ∧ ∃ l,
      (f.line, l) ∈ (splitNl content.data).enumFrom 1 ∧
        f ∈ scanLine p f.line l := by
  match c with
  | none => simp [scan_file] at h
  | some content =>
    refine ⟨content, rfl, ?_⟩
    simp only [scan_file, List.mem_flatMap] at h
    obtain ⟨nl, hmem, hf⟩ := h
    have hline := (mem_scanLine hf).2.1
    exact ⟨nl.2, by rwa [hline], by rwa [hline]⟩

/-- Two entries of `enumFrom` with the same index are the same element. -/
theorem enumFrom_index_inj {α : Type} {k n : Nat} {xs : List α} {x y : α}
    (hx : (n, x) ∈ xs.enumFrom k) (hy : (n, y) ∈ xs.enumFrom k) : x = y := by
  rw [List.mk_mem_enumFrom_iff_le_and_getElem?_sub] at hx hy
  have := hx.2.symm.trans hy.2
  exact Option.some.inj this

/-! ## Claim theorems -/

/-- Claim C1, counterexample: with `--update-baseline` and one new
finding, the run exits 1 and the baseline file is NOT rewritten —
`sys.exit(1)` is reached before the baseline update, so the persistence
does not happen in the failure state, contrary to the claim. -/
theorem c1_counterexample :
    (runMainOk [("docs/a.md", some "x@y.com")] [] true).new_violations ≠ [] ∧
    (runMainOk [("docs/a.md", some "x@y.com")] [] true).exitCode = 1 ∧
    (runMainOk [("docs/a.md", some "x@y.com")] [] true).written = none := by
  decide

/-- Claim C1, amended: under `--update-baseline` the baseline is
rewritten with the entire current findings set only when the run ends in
the success state (zero new findings); when at least one new finding
exists the process exits non-zero before persisting, so the baseline file
is left untouched. -/
theorem c1_baseline_written_only_on_success
    (docs : List (String × Option String)) (b : List Finding) (flag : Bool) :
    ((runMainOk docs b flag).new_violations = [] →
      (runMainOk docs b flag).written =
        if flag then some (runMainOk docs b flag).all_violations else none) ∧
    ((runMainOk docs b flag).new_violations ≠ [] →
      (runMainOk docs b flag).written = none) := by
  simp only [runMainOk]
  split <;> rename_i h <;> rw [List.isEmpty_iff] at h
  · exact ⟨fun _ => rfl, fun hne => absurd h hne⟩
  · exact ⟨fun hnil => absurd hnil h, fun _ => rfl⟩

/-- Witness for C1 (amended) at a concrete successful update run. -/
theorem c1_baseline_written_only_on_success_witness :
    (runMainOk [("docs/a.md", some "hello")] [] true).written =
      if true then
        some (runMainOk [("docs/a.md", some "hello")] [] true).all_violations
      else none :=
  (c1_baseline_written_only_on_success [("docs/a.md", some "hello")] []
    true).1 (by decide)

/-- Claim C2: on the spec's example document the scan does NOT yield
exactly one finding: besides the line-3 email it also reports a line-5
`us_phone` finding with text `1234567890`. The phone regex cannot match
the `+1` prefix of `+1234567890` (only nine digits would remain for its
3-3-4 digit groups), so the match starts at the `1` and the allowlist
entry `\+1234567890` — intended by the code's own comment as an
"obviously fake number" — never fires. The run still exits 1. -/
theorem c2_example_scan :
    scan_file "docs/a.md" (some docA) = [emailFindingA, phoneFindingA] ∧
    (runMainOk [("docs/a.md", some docA)] [] false).exitCode = 1 := by
  decide

/-- Claim C3: the exit code is 0 exactly when the set of new
(non-baselined) findings is empty, and 1 whenever a new finding exists. -/
theorem c3_exit_code_contract (docs : List (String × Option String))
    (b : List Finding) (flag : Bool) :
    ((runMainOk docs b flag).exitCode = 0 ↔
        (runMainOk docs b flag).new_violations = []) ∧
    ((runMainOk docs b flag).new_violations ≠ [] →
        (runMainOk docs b flag).exitCode = 1) := by
  simp only [runMainOk]
  split <;> rename_i h <;> rw [List.isEmpty_iff] at h
  · exact ⟨⟨fun _ => h, fun _ => rfl⟩, fun hne => absurd h hne⟩
  · exact ⟨⟨fun h0 => absurd h0 Nat.one_ne_zero, fun hnil => absurd hnil h⟩,
      fun _ => rfl⟩

/-- Witness for C3 at a concrete run with one new finding. -/
theorem c3_exit_code_contract_witness :
    (runMainOk [("docs/a.md", some "x@y.com")] [] false).exitCode = 1 :=
  (c3_exit_code_contract [("docs/a.md", some "x@y.com")] [] false).2
    (by decide)

/-- Claim C4, counterexample: reported findings are not de-duplicated on
(file, line, kind, text): a line holding the same email twice yields two
findings with the same identifying tuple. -/
theorem c4_counterexample :
    ¬ List.Pairwise (fun a b => tupleOf a ≠ tupleOf b)
        (scan_file "docs/a.md" (some "a@b.co a@b.co")) := by
  decide

/-- Claim C4, amended: within a single scan the identifying tuple can be
reported more than once, but it still determines the finding: any two
findings of one scan with equal (file, line, kind, text) are equal
records (in particular their contexts agree). -/
theorem c4_tuple_determines_finding (p : String) (c : Option String)
    (f g : Finding) (hf : f ∈ scan_file p c) (hg : g ∈ scan_file p c)
    (ht : tupleOf f = tupleOf g) : f = g := by
  obtain ⟨cf, rfl, lf, hlf, hfs⟩ := mem_scan_file hf
  obtain ⟨cg, hcg, lg, hlg, hgs⟩ := mem_scan_file hg
  injection hcg with hcg
  subst hcg
  have hline : f.line = g.line := congrArg (fun t => t.2.1) ht
  rw [← hline] at hlg
  have hl : lg = lf := enumFrom_index_inj hlg hlf
  have hfc := (mem_scanLine hfs).2.2.1
  have hgc := (mem_scanLine hgs).2.2.1
  have hctx : f.context = g.context := by rw [hfc, hgc, hl]
  have h1 : f.file = g.file := congrArg (fun t => t.1) ht
  have h3 : f.kind = g.kind := congrArg (fun t => t.2.2.1) ht
  have h4 : f.text = g.text := congrArg (fun t => t.2.2.2) ht
  cases f; cases g; simp_all

/-- Witness for C4 (amended) at the two duplicate findings of one scan. -/
theorem c4_tuple_determines_finding_witness : dupFinding = dupFinding :=
  c4_tuple_determines_finding "docs/a.md" (some "a@b.co a@b.co")
    dupFinding dupFinding (by decide) (by decide) (by decide)

/-- Claim C5: a candidate match whose text contains an allow-listed
pattern is suppressed at scan time: no reported finding has allow-listed
text, and neither does any entry of a baseline written by
`--update-baseline`. -/
theorem c5_allowlist_suppressed :
    (∀ (p : String) (c : Option String) (f : Finding),
        f ∈ scan_file p c → is_allowed_pattern f.text.data = false) ∧
    (∀ (docs : List (String × Option String)) (b : List Finding)
        (flag : Bool) (vs : List Finding) (f : Finding),
        (runMainOk docs b flag).written = some vs → f ∈ vs →
        is_allowed_pattern f.text.data = false) := by
  have part1 : ∀ (p : String) (c : Option String) (f : Finding),
      f ∈ scan_file p c → is_allowed_pattern f.text.data = false := by
    intro p c f hf
    obtain ⟨content, -, l, -, hs⟩ := mem_scan_file hf
    exact (mem_scanLine hs).2.2.2
  refine ⟨part1, ?_⟩
  intro docs b flag vs f hw hf
  simp only [runMainOk] at hw
  split at hw
  · split at hw
    · cases hw
      obtain ⟨d, -, hfd⟩ := List.mem_flatMap.mp hf
      exact part1 d.1 d.2 f hfd
    · exact absurd hw (by simp)
  · exact absurd hw (by simp)

/-- Witness for C5 at a concrete reported finding. -/
theorem c5_allowlist_suppressed_witness :
    is_allowed_pattern dupFinding.text.data = false :=
  c5_allowlist_suppressed.1 "docs/a.md" (some "a@b.co a@b.co") dupFinding
    (by decide)

/-- Claim C6: round-trip — saving a scan's findings as the baseline and
re-scanning the same unchanged documents classifies every finding as
existing: the saved baseline loads back, there are zero new findings, and
the run exits 0. -/
theorem c6_round_trip (docs : List (String × Option String)) (flag : Bool) :
    runMain docs (some (some (allViolations docs))) flag =
      Except.ok (runMainOk docs (allViolations docs) flag) ∧
    (runMainOk docs (allViolations docs) flag).new_violations = [] ∧
    (runMainOk docs (allViolations docs) flag).exitCode = 0 := by
  refine ⟨rfl, ?_⟩
  have hnew : (allViolations docs).filter
      (fun v => !(((allViolations docs).map signature).contains
        (signature v))) = [] := by
    rw [List.filter_eq_nil_iff]
    intro v hv
    simp only [Bool.not_eq_true', Bool.not_eq_false]
    exact List.elem_iff.mpr (List.mem_map_of_mem _ hv)
  simp only [runMainOk]
  rw [hnew]
  exact ⟨rfl, rfl⟩

/-- Claim C7: a document that cannot be read contributes exactly zero
findings, and the run over the remaining documents is unchanged — a
per-file read failure never aborts or alters the rest of the scan. -/
theorem c7_read_failure_skipped (p : String)
    (docs1 docs2 : List (String × Option String)) (b : List Finding)
    (flag : Bool) :
    scan_file p none = [] ∧
    runMainOk (docs1 ++ (p, none) :: docs2) b flag =
      runMainOk (docs1 ++ docs2) b flag := by
  refine ⟨rfl, ?_⟩
  have hall : allViolations (docs1 ++ (p, none) :: docs2) =
      allViolations (docs1 ++ docs2) := by
    simp [allViolations, scan_file]
  simp only [runMainOk]
  rw [hall]

/-- Claim C8: an absent baseline file loads as the empty list, and a
present-but-malformed baseline file aborts the whole run with an
unhandled error, before any scanning decision is reported. -/
theorem c8_baseline_load :
    load_baseline none = Except.ok ([] : List Finding) ∧
    ∀ (docs : List (String × Option String)) (flag : Bool),
      runMain docs (some none) flag = Except.error () :=
  ⟨rfl, fun _ _ => rfl⟩

/-- Claim C9: document discovery never yields a document inside a hidden
directory (name starting with `.`) or inside `node_modules`: every
directory component of a discovered path passes the pruning predicate,
at every recursion depth (pruned subtrees are never descended into). -/
theorem c9_walk_never_yields_pruned (fuel : Nat) (t : FSTree)
    (pr : List String × String) (hw : pr ∈ walk fuel t) (d : String)
    (hd : d ∈ pr.1) :
    List.isPrefixOf ".".data d.data = false ∧ d ≠ "node_modules" := by
  induction fuel generalizing t pr d with
  | zero => simp [walk] at hw
  | succ fuel ih =>
    obtain ⟨name, subdirs, files⟩ := t
    simp only [walk] at hw
    rcases List.mem_append.mp hw with hmd | hsub
    · obtain ⟨file, -, rfl⟩ := List.mem_map.mp hmd
      simp at hd
    · obtain ⟨s, hs, hpr⟩ := List.mem_flatMap.mp hsub
      obtain ⟨pr', hpr', rfl⟩ := List.mem_map.mp hpr
      have hkeep : keepDir s.name = true := (List.mem_filter.mp hs).2
      rcases List.mem_cons.mp hd with rfl | hd'
      · simp only [keepDir, Bool.and_eq_true, Bool.not_eq_true',
          decide_eq_true_eq] at hkeep
        exact ⟨hkeep.1, hkeep.2⟩
      · exact ih s pr' hpr' d hd'

/-- Witness for C9 at a concrete tree with hidden and cache directories. -/
theorem c9_walk_never_yields_pruned_witness :
    List.isPrefixOf ".".data "docs".data = false ∧ "docs" ≠ "node_modules" :=
  c9_walk_never_yields_pruned 2 sampleTree (["docs"], "a.md") (by decide)
    "docs" (by decide)

/-- Claim C10: the colon-joined signature is not injective on identifying
tuples: `collFinding` (file path with colons) and `collEntry` (text with
colons) have distinct (file, line, kind, text) tuples but equal
signatures, and with `collEntry` as the sole baseline entry the scan
producing exactly `collFinding` classifies it as existing. -/
theorem c10_signature_collision :
    tupleOf collFinding ≠ tupleOf collEntry ∧
    signature collFinding = signature collEntry ∧
    (runMainOk [("a:1:email", some "x@y.com")] [collEntry]
      false).all_violations = [collFinding] ∧
    (runMainOk [("a:1:email", some "x@y.com")] [collEntry]
      false).new_violations = [] := by
  decide

end PIIScanner
